import Mathlib

/-!
# Verification of the generative audio engine

Shallow embedding of the `AudioEngine` class (src/unnamed/part_000) from the
repository, together with proofs of the testable properties stated in its
specification.  JavaScript numbers are modelled as exact rationals (every IEEE
double is a rational); `Math.sin`, whose value sequence ECMAScript leaves
implementation-defined, is modelled as an abstract parameter `msin : ℤ → ℚ`
threaded through the definitions.
-/

namespace AudioEngine

/-! ## Seeded sequence generator (`getRandomFromSeed`) -/

/-- JavaScript `ToInt32`: wrap an integer to the signed 32-bit range,
as the `<<` operator does to its operands and result. -/
def jsToInt32 (n : ℤ) : ℤ := (n + 2 ^ 31) % 2 ^ 32 - 2 ^ 31

/-- One step of the seed-hash fold:
`hash = seed.charCodeAt(i) + ((hash << 5) - hash)`.
`hash << 5` coerces `hash` to int32, shifts, and wraps the result to int32;
the outer `-` and `+` are exact (the operands stay far below 2^53). -/
def hashStep (hash : ℤ) (c : ℕ) : ℤ :=
  c + (jsToInt32 (jsToInt32 hash * 32) - hash)

/-- UTF-16 code units of a character, matching `String.charCodeAt`. -/
def utf16CodeUnits (c : Char) : List ℕ :=
  let n := c.toNat
  if n < 0x10000 then [n]
  else [0xD800 + (n - 0x10000) / 0x400, 0xDC00 + (n - 0x10000) % 0x400]

/-- The integer hash folded over the seed string's UTF-16 code units,
starting from `hash = 0` (`getRandomFromSeed`, first loop). -/
def hashString (s : String) : ℤ :=
  (s.data.flatMap utf16CodeUnits).foldl hashStep 0

/-- The `n`-th draw of the returned closure: the closure's counter starts at
the hash and increments on every call, so draw `n` is
`frac(sin(hash + n) * 10000)`. -/
def drawAt (msin : ℤ → ℚ) (seed : String) (n : ℕ) : ℚ :=
  Int.fract (msin (hashString seed + n) * 10000)

/-! ## Musical parameters (the `MusicalParams` interface) -/

/-- `MusicalParams`: the structured parameter set handed to `play`.
`scale` and `mood` are string enums; `mood` is accepted but unused. -/
structure MusicalParams where
  scale : String
  baseFrequency : ℚ
  tempo : ℚ
  complexity : ℚ
  mood : String

/-! ## Scale table (`this.scales`) -/

/-- The static scale registry: named ordered lists of semitone offsets. -/
def scales (name : String) : Option (List ℤ) :=
  if name = "major" then some [0, 2, 4, 5, 7, 9, 11, 12]
  else if name = "minor" then some [0, 2, 3, 5, 7, 8, 10, 12]
  else if name = "pentatonic" then some [0, 2, 4, 7, 9, 12, 14, 16]
  else if name = "mystic" then some [0, 2, 4, 6, 9, 11, 12]
  else if name = "dream" then some [0, 2, 4, 5, 7, 9, 11]
  else none

/-- `startGenerativeMelody`'s scale choice:
`params.scale === 'minor' ? 'minor' : 'pentatonic'`. -/
def selectScaleName (scale : String) : String :=
  if scale = "minor" then "minor" else "pentatonic"

/-- `this.scales[scaleName] || this.scales.pentatonic`. -/
def scaleNotesFor (scale : String) : List ℤ :=
  (scales (selectScaleName scale)).getD [0, 2, 4, 7, 9, 12, 14, 16]

/-! ## Melody tick scheduling (`startGenerativeMelody`) -/

/-- `const bpm = params.tempo || 80`: JavaScript `||` replaces a falsy
tempo (0) by the default 80. -/
def effectiveBpm (tempo : ℚ) : ℚ :=
  if tempo = 0 then 80 else tempo

/-- `const noteDuration = 60 / bpm` (seconds per tick). -/
def noteDurationSec (tempo : ℚ) : ℚ :=
  60 / effectiveBpm tempo

/-- The note choice an emitting tick makes: the scale-degree index
`Math.floor(rng() * scaleNotes.length)` and the octave multiplier
(`rng() > 0.7 ? 2 : 1`). -/
structure MelodyNote where
  noteIdx : ℤ
  octave : ℕ
deriving DecidableEq, Repr

/-- One firing of the melody interval callback, reading the shared draw
stream at position `pos`.  Draw 1 is the emission gate
(`rng() > 1 - complexity`); on emission, draw 2 picks the scale degree and
draw 3 the octave.  Returns the emitted note (if any) and the stream
position after the tick. -/
def melodyTick (draws : ℕ → ℚ) (complexity : ℚ) (scaleLen : ℕ) (pos : ℕ) :
    Option MelodyNote × ℕ :=
  if draws pos > 1 - complexity then
    (some { noteIdx := ⌊draws (pos + 1) * scaleLen⌋,
            octave := if draws (pos + 2) > 7 / 10 then 2 else 1 },
     pos + 3)
  else
    (none, pos + 1)

/-- Stream position before tick `n`, starting the scheduler at `start`. -/
def melodyPosAfter (draws : ℕ → ℚ) (complexity : ℚ) (scaleLen : ℕ)
    (start : ℕ) : ℕ → ℕ
  | 0 => start
  | n + 1 => (melodyTick draws complexity scaleLen
      (melodyPosAfter draws complexity scaleLen start n)).2

/-- The note emitted at tick `n` (`none` when the tick skips). -/
def melodyOutput (draws : ℕ → ℚ) (complexity : ℚ) (scaleLen : ℕ)
    (start : ℕ) (n : ℕ) : Option MelodyNote :=
  (melodyTick draws complexity scaleLen
    (melodyPosAfter draws complexity scaleLen start n)).1

/-- Whether tick `n` emits a note. -/
def tickEmits (draws : ℕ → ℚ) (complexity : ℚ) (scaleLen : ℕ)
    (start : ℕ) (n : ℕ) : Bool :=
  (melodyOutput draws complexity scaleLen start n).isSome

/-- Number of ticks among `0, …, n-1` that emit a note. -/
def emitCount (draws : ℕ → ℚ) (complexity : ℚ) (scaleLen : ℕ)
    (start : ℕ) : ℕ → ℕ
  | 0 => 0
  | n + 1 => emitCount draws complexity scaleLen start n +
      (if tickEmits draws complexity scaleLen start n then 1 else 0)

/-! ## Pad voice (`startPad`) -/

/-- `osc.type = rng() > 0.5 ? 'sine' : 'triangle'`. -/
inductive OscType
  | sine
  | triangle
deriving DecidableEq, Repr

/-- One pad tone together with its slow amplitude modulator (LFO). -/
structure PadTone where
  oscType : OscType
  freq : ℚ
  gain : ℚ
  lfoFreq : ℚ
  lfoGainAmp : ℚ
deriving DecidableEq, Repr

/-- `const chordOffsets = [1, 1.5, 1.25]` — root, fifth, major-third approx. -/
def chordOffsets : List ℚ := [1, 3 / 2, 5 / 4]

/-- The tone built by one iteration of the `forEach` over `chordOffsets`,
reading the shared draw stream at position `pos`: the first draw picks the
timbre, the second the modulator rate (`0.1 + rng() * 0.2`); gain is fixed
at 0.08 and the LFO depth at 0.02.  `root = params.baseFrequency / 2`. -/
def padToneAt (draws : ℕ → ℚ) (baseFrequency : ℚ) (pos : ℕ) (mult : ℚ) :
    PadTone :=
  { oscType := if draws pos > 1 / 2 then .sine else .triangle
    freq := baseFrequency / 2 * mult
    gain := 8 / 100
    lfoFreq := 1 / 10 + draws (pos + 1) * (2 / 10)
    lfoGainAmp := 2 / 100 }

/-- The `forEach` loop over the chord multipliers: each iteration consumes
two draws and builds one tone. -/
def padLoop (draws : ℕ → ℚ) (baseFrequency : ℚ) :
    List ℚ → ℕ → List PadTone × ℕ
  | [], pos => ([], pos)
  | m :: ms, pos =>
    let tone := padToneAt draws baseFrequency pos m
    let rest := padLoop draws baseFrequency ms (pos + 2)
    (tone :: rest.1, rest.2)

/-- `startPad`: builds the three pad tones from the draw stream, returning
the tones and the stream position handed on to the melody scheduler. -/
def startPad (draws : ℕ → ℚ) (baseFrequency : ℚ) (pos : ℕ) :
    List PadTone × ℕ :=
  padLoop draws baseFrequency chordOffsets pos

/-! ## Voices and the oscillator teardown list -/

/-- A tracked sound-producing node (`OscillatorNode`): `startPad` pushes the
tone oscillator and its LFO for each chord member onto
`this.currentOscillators`. -/
structure Voice where
  stopped : Bool
deriving DecidableEq, Repr

/-- `o.stop()` on an already-stopped node raises; the engine's teardown
wraps it in `try { … } catch(e) {}`. -/
def voiceStop (v : Voice) : Except String Voice :=
  if v.stopped then .error "InvalidStateError"
  else .ok { stopped := true }

/-- `try { o.stop(); o.disconnect(); } catch(e) {}` — any teardown error is
caught and discarded locally, leaving the node as it was. -/
def voiceStopCaught (v : Voice) : Except String Voice :=
  match voiceStop v with
  | .ok v' => .ok v'
  | .error _ => .ok v

/-- `this.currentOscillators.forEach(o => { try { o.stop(); o.disconnect(); }
catch(e){} })` — the loop body never lets an error escape. -/
def stopVoices : List Voice → Except String (List Voice)
  | [] => .ok []
  | v :: vs => do
    let v' ← voiceStopCaught v
    let vs' ← stopVoices vs
    .ok (v' :: vs')

/-- The two tracked nodes per pad tone, pushed in source order
(`this.currentOscillators.push(osc); this.currentOscillators.push(lfo)`). -/
def padVoices (tones : List PadTone) : List Voice :=
  tones.flatMap fun _ => [{ stopped := false }, { stopped := false }]

/-! ## Engine state and lifecycle (`play` / `stop`) -/

/-- The mutable fields of the `AudioEngine` singleton.  `ctx` records whether
an `AudioContext` could be constructed; the reverb/delay nodes are modelled
by the flag `effectsBuilt`, since they are built lazily and persist across
sessions. -/
structure EngineState where
  ctx : Bool
  isPlaying : Bool
  masterGain : Option Unit
  melodyInterval : Option ℕ
  currentOscillators : List Voice
  effectsBuilt : Bool
deriving DecidableEq, Repr

/-- The state `stop()` leaves behind: liveness flag cleared, interval
cancelled, tracked voices released, master gain discarded.  The effects
nodes are untouched. -/
def afterStop (s : EngineState) : EngineState :=
  { s with isPlaying := false, melodyInterval := none,
           currentOscillators := [], masterGain := none }

/-- `stop()`: clears `isPlaying`, cancels the melody interval, force-stops
every tracked voice with per-voice `try`/`catch`, empties the tracked list,
and disconnects and discards the master gain.  Modelled in `Except` so that
"never propagates an error" is a provable statement. -/
def stop (s : EngineState) : Except String EngineState := do
  let s1 : EngineState := { s with isPlaying := false, melodyInterval := none }
  let _ ← stopVoices s1.currentOscillators
  .ok { s1 with currentOscillators := [], masterGain := none }

/-- Everything a session derives from the seed: the pad tones (with their
timbre and modulation-rate choices) and the melody output at every tick. -/
structure SessionOutcome where
  padTones : List PadTone
  melody : ℕ → Option MelodyNote

/-- The outcome `play(params, memoryId)` constructs: the draw stream is
`getRandomFromSeed(memoryId)`; the pad consumes draws 0–5, and the melody
scheduler continues from position 6. -/
def sessionOutcome (msin : ℤ → ℚ) (params : MusicalParams)
    (memoryId : String) : SessionOutcome :=
  let draws := drawAt msin memoryId
  let pad := startPad draws params.baseFrequency 0
  { padTones := pad.1
    melody := fun n =>
      melodyOutput draws params.complexity
        (scaleNotesFor params.scale).length pad.2 n }

/-- `play(params, memoryId)`: returns without acting when no audio context
exists; otherwise awaits `resume()`, calls `stop()`, builds the master gain,
sets up the (persistent) effects chain, derives the RNG stream from
`memoryId`, starts the pad (pushing its six nodes onto the teardown list),
installs the melody interval, and sets `isPlaying`. -/
def play (msin : ℤ → ℚ) (params : MusicalParams) (memoryId : String)
    (s : EngineState) : Except String (EngineState × Option SessionOutcome) := do
  if s.ctx = false then
    return (s, none)
  let s1 ← stop s
  let s2 : EngineState := { s1 with masterGain := some () }
  let s3 : EngineState := { s2 with effectsBuilt := true }
  let out := sessionOutcome msin params memoryId
  let s4 : EngineState :=
    { s3 with currentOscillators := s3.currentOscillators ++ padVoices out.padTones }
  let s5 : EngineState := { s4 with melodyInterval := some 0 }
  .ok ({ s5 with isPlaying := true }, some out)

/-- Whether a `play` call on state `s` ends with an active session. -/
def playActivates (msin : ℤ → ℚ) (params : MusicalParams) (memoryId : String)
    (s : EngineState) : Bool :=
  match play msin params memoryId s with
  | .ok (s', some _) => s'.isPlaying
  | _ => false

/-! ## The ordered steps of `play` (control flow of the method body) -/

/-- The observable steps of `play`, in the order the method body names
them. -/
inductive PlayStep
  | resumeBackend
  | stopExisting
  | buildMasterGain
  | setupEffects
  | deriveRng
  | startPadVoice
  | startMelody
  | markActive
deriving DecidableEq, Repr

/-- Transcription of the statement order of `play`'s body:
`await this.resume(); this.stop(); masterGain = …; await setupEffects();
rng = getRandomFromSeed(memoryId); startPad(…); startGenerativeMelody(…);
isPlaying = true`. -/
def playSteps : List PlayStep :=
  [.resumeBackend, .stopExisting, .buildMasterGain, .setupEffects,
   .deriveRng, .startPadVoice, .startMelody, .markActive]

/-- The state a successful `play` ends in: `stop` cleared the per-session
resources, then the method rebuilt the master gain, effects, pad voices and
melody interval. -/
def afterPlay (msin : ℤ → ℚ) (params : MusicalParams) (memoryId : String)
    (s : EngineState) : EngineState :=
  { s with isPlaying := true, masterGain := some (),
           melodyInterval := some 0, effectsBuilt := true,
           currentOscillators :=
             padVoices (sessionOutcome msin params memoryId).padTones }

/-! ## Helper lemmas -/

theorem voiceStopCaught_ok (v : Voice) :
    voiceStopCaught v = .ok { stopped := true } := by
  cases v with
  | mk b => cases b <;> rfl

theorem stopVoices_ok (vs : List Voice) :
    stopVoices vs = .ok (vs.map fun _ => { stopped := true }) := by
  induction vs with
  | nil => rfl
  | cons v vs ih =>
    simp only [stopVoices, voiceStopCaught_ok, ih]
    rfl

theorem stop_ok (s : EngineState) : stop s = .ok (afterStop s) := by
  simp only [stop, stopVoices_ok]
  rfl

theorem play_ok (msin : ℤ → ℚ) (params : MusicalParams) (memoryId : String)
    (s : EngineState) (h : s.ctx = true) :
    play msin params memoryId s
      = .ok (afterPlay msin params memoryId s,
             some (sessionOutcome msin params memoryId)) := by
  unfold play
  rw [if_neg (by simp [h]), stop_ok]
  rfl

theorem melodyTick_snd (d : ℕ → ℚ) (c : ℚ) (l p : ℕ) :
    (melodyTick d c l p).2
      = p + (if (melodyTick d c l p).1.isSome then 3 else 1) := by
  by_cases h : d p > 1 - c <;> simp [melodyTick, h]

theorem melodyTick_isSome (d : ℕ → ℚ) (c : ℚ) (l p : ℕ) :
    (melodyTick d c l p).1.isSome = decide (d p > 1 - c) := by
  by_cases h : d p > 1 - c <;> simp [melodyTick, h]

theorem melodyPosAfter_formula (d : ℕ → ℚ) (c : ℚ) (l start : ℕ) (n : ℕ) :
    melodyPosAfter d c l start n = start + n + 2 * emitCount d c l start n := by
  induction n with
  | zero => simp [melodyPosAfter, emitCount]
  | succ n ih =>
    have h : (melodyTick d c l (melodyPosAfter d c l start n)).1.isSome
        = tickEmits d c l start n := rfl
    rw [melodyPosAfter, melodyTick_snd, h, ih, emitCount]
    by_cases he : tickEmits d c l start n <;> simp [he] <;> omega

/-! ## Claim theorems -/

/-- C2, counterexample: in the transcribed statement order of `play`'s body,
`await this.resume()` (ensuring the output backend is running) comes strictly
BEFORE `this.stop()` (tearing down the existing session) — the claim asserts
the opposite order. -/
theorem play_resume_before_stop_counterexample :
    playSteps.indexOf PlayStep.resumeBackend
        < playSteps.indexOf PlayStep.stopExisting
    ∧ ¬ playSteps.indexOf PlayStep.stopExisting
        < playSteps.indexOf PlayStep.resumeBackend := by
  decide

/-- C2, amended: `play(params, id)` first ensures the output backend is in a
running state, THEN tears down any existing session, and only then builds the
master gain, effects bus, RNG stream, pad voice and melody scheduler, in that
order, finally marking the session active. -/
theorem play_step_order :
    playSteps.indexOf PlayStep.resumeBackend
        < playSteps.indexOf PlayStep.stopExisting
    ∧ playSteps.indexOf PlayStep.stopExisting
        < playSteps.indexOf PlayStep.buildMasterGain
    ∧ playSteps.indexOf PlayStep.buildMasterGain
        < playSteps.indexOf PlayStep.setupEffects
    ∧ playSteps.indexOf PlayStep.setupEffects
        < playSteps.indexOf PlayStep.deriveRng
    ∧ playSteps.indexOf PlayStep.deriveRng
        < playSteps.indexOf PlayStep.startPadVoice
    ∧ playSteps.indexOf PlayStep.startPadVoice
        < playSteps.indexOf PlayStep.startMelody
    ∧ playSteps.indexOf PlayStep.startMelody
        < playSteps.indexOf PlayStep.markActive := by
  decide

/-- C6, counterexample: `tempo = 0` IS silently special-cased — JavaScript's
`params.tempo || 80` replaces the falsy value 0 by the default 80, so the
tick interval at tempo 0 is the substituted `60 / 80 = 0.75 s`, not a value
computed from the supplied tempo (`60 / 0` in the field ℚ would be 0). -/
theorem tempo_zero_special_cased :
    effectiveBpm 0 = 80
    ∧ noteDurationSec 0 = 60 / 80
    ∧ (60 / 80 : ℚ) ≠ 60 / 0 := by
  refine ⟨rfl, rfl, ?_⟩
  norm_num

/-- C6, amended: a nonzero tempo is not validated — the melody tick interval
is computed as `60 / tempo` directly from the supplied value, so a negative
tempo yields an ill-defined (negative) tick interval; but a zero tempo is
falsy in JavaScript and is silently replaced by the default 80 via
`params.tempo || 80`. -/
theorem tempo_passthrough (t : ℚ) (ht : t ≠ 0) :
    noteDurationSec t = 60 / t ∧ noteDurationSec 0 = 60 / 80 := by
  constructor
  · simp [noteDurationSec, effectiveBpm, ht]
  · rfl

/-- Witness for `tempo_passthrough` at the concrete negative tempo `-5`. -/
theorem tempo_passthrough_witness :
    noteDurationSec (-5) = 60 / (-5) ∧ noteDurationSec 0 = 60 / 80 :=
  tempo_passthrough (-5) (by norm_num)

/-- C7: every scale value other than `"minor"` resolves the melody layer to
the pentatonic table `[0,2,4,7,9,12,14,16]`; exactly the value `"minor"`
selects the minor table `[0,2,3,5,7,8,10,12]`. -/
theorem scale_fallback :
    (∀ s : String, s ≠ "minor" →
      scaleNotesFor s = [0, 2, 4, 7, 9, 12, 14, 16])
    ∧ scaleNotesFor "minor" = [0, 2, 3, 5, 7, 8, 10, 12] := by
  constructor
  · intro s hs
    unfold scaleNotesFor selectScaleName
    rw [if_neg hs]
    rfl
  · rfl

/-- Witness for `scale_fallback` at the unknown scale value `"chromatic"`. -/
theorem scale_fallback_witness :
    scaleNotesFor "chromatic" = [0, 2, 4, 7, 9, 12, 14, 16]
    ∧ scaleNotesFor "minor" = [0, 2, 3, 5, 7, 8, 10, 12] :=
  ⟨scale_fallback.1 "chromatic" (by decide), scale_fallback.2⟩

/-- C8, counterexample: the claim fails on the scale table in two ways —
the `major` entry has no offset strictly greater than 12 (its maximum is
exactly 12), and the `pentatonic` entry does not span two octaves (its
maximum offset is 16, short of the 24 semitones two octaves require). -/
theorem scales_span_counterexample :
    scales "major" = some [0, 2, 4, 5, 7, 9, 11, 12]
    ∧ (¬ ∃ x ∈ [(0 : ℤ), 2, 4, 5, 7, 9, 11, 12], 12 < x)
    ∧ scales "pentatonic" = some [0, 2, 4, 7, 9, 12, 14, 16]
    ∧ ((scales "pentatonic").getD []).maximum = some 16
    ∧ (16 : ℤ) < 24 := by
  decide

/-- C8, amended: every entry of the scale table is an ordered strictly
ascending list of semitone offsets; the pentatonic entry spans more than one
octave (maximum offset 16 > 12) but not two (16 < 24), while no other entry
exceeds one octave: major, minor and mystic reach exactly 12 and dream
only 11 semitones. -/
theorem scales_entries_spec :
    List.Pairwise (· < ·) ((scales "major").getD [])
    ∧ List.Pairwise (· < ·) ((scales "minor").getD [])
    ∧ List.Pairwise (· < ·) ((scales "pentatonic").getD [])
    ∧ List.Pairwise (· < ·) ((scales "mystic").getD [])
    ∧ List.Pairwise (· < ·) ((scales "dream").getD [])
    ∧ (scales "pentatonic").getD [] = [0, 2, 4, 7, 9, 12, 14, 16]
    ∧ (∃ x ∈ (scales "pentatonic").getD [], 12 < x)
    ∧ ((scales "pentatonic").getD []).maximum = some 16
    ∧ (12 : ℤ) < 16
    ∧ (16 : ℤ) < 24
    ∧ ((scales "major").getD []).maximum = some 12
    ∧ ((scales "minor").getD []).maximum = some 12
    ∧ ((scales "mystic").getD []).maximum = some 12
    ∧ ((scales "dream").getD []).maximum = some 11 := by
  decide

/-- C1: two independent sessions started via `play` with the same identifier
and the same musical parameters — from arbitrary prior engine states — yield
exactly the same session outcome: the same pad timbre and modulation-rate
choices and the same melody note/octave choice at every tick, all derived
from the single RNG stream seeded by the identifier. -/
theorem play_two_run_determinism (msin : ℤ → ℚ) (params : MusicalParams)
    (memoryId : String) (s1 s2 : EngineState)
    (h1 : s1.ctx = true) (h2 : s2.ctx = true) :
    play msin params memoryId s1
        = .ok (afterPlay msin params memoryId s1,
               some (sessionOutcome msin params memoryId))
    ∧ play msin params memoryId s2
        = .ok (afterPlay msin params memoryId s2,
               some (sessionOutcome msin params memoryId))
    ∧ (sessionOutcome msin params memoryId).padTones
        = (startPad (drawAt msin memoryId) params.baseFrequency 0).1
    ∧ (∀ n, (sessionOutcome msin params memoryId).melody n
        = melodyOutput (drawAt msin memoryId) params.complexity
            (scaleNotesFor params.scale).length
            (startPad (drawAt msin memoryId) params.baseFrequency 0).2 n) :=
  ⟨play_ok msin params memoryId s1 h1,
   play_ok msin params memoryId s2 h2,
   rfl, fun _ => rfl⟩

/-- Witness for `play_two_run_determinism`: two concrete engine states (one
fresh, one mid-session) playing the same parameters and identifier. -/
theorem play_two_run_determinism_witness :
    play (fun _ => 0)
        ⟨"pentatonic", 440, 80, 1 / 2, "ethereal"⟩ "memory-1"
        ⟨true, false, none, none, [], false⟩
      = .ok (afterPlay (fun _ => 0)
               ⟨"pentatonic", 440, 80, 1 / 2, "ethereal"⟩ "memory-1"
               ⟨true, false, none, none, [], false⟩,
             some (sessionOutcome (fun _ => 0)
               ⟨"pentatonic", 440, 80, 1 / 2, "ethereal"⟩ "memory-1"))
    ∧ play (fun _ => 0)
        ⟨"pentatonic", 440, 80, 1 / 2, "ethereal"⟩ "memory-1"
        ⟨true, true, some (), some 7, [⟨false⟩, ⟨true⟩], true⟩
      = .ok (afterPlay (fun _ => 0)
               ⟨"pentatonic", 440, 80, 1 / 2, "ethereal"⟩ "memory-1"
               ⟨true, true, some (), some 7, [⟨false⟩, ⟨true⟩], true⟩,
             some (sessionOutcome (fun _ => 0)
               ⟨"pentatonic", 440, 80, 1 / 2, "ethereal"⟩ "memory-1"))
    ∧ (sessionOutcome (fun _ => 0)
         ⟨"pentatonic", 440, 80, 1 / 2, "ethereal"⟩ "memory-1").padTones
        = (startPad (drawAt (fun _ => 0) "memory-1") 440 0).1
    ∧ (∀ n, (sessionOutcome (fun _ => 0)
         ⟨"pentatonic", 440, 80, 1 / 2, "ethereal"⟩ "memory-1").melody n
        = melodyOutput (drawAt (fun _ => 0) "memory-1") (1 / 2)
            (scaleNotesFor "pentatonic").length
            (startPad (drawAt (fun _ => 0) "memory-1") 440 0).2 n) :=
  play_two_run_determinism (fun _ => 0)
    ⟨"pentatonic", 440, 80, 1 / 2, "ethereal"⟩ "memory-1"
    ⟨true, false, none, none, [], false⟩
    ⟨true, true, some (), some 7, [⟨false⟩, ⟨true⟩], true⟩
    rfl rfl

/-- C5: `stop()` never raises — on every engine state, including one where
no session was ever started or whose tracked voices are already stopped, it
returns normally, releases every tracked voice and the master gain, is
idempotent (a second call returns the same state), and leaves the engine in
a state from which `play()` starts an active session exactly when an audio
context exists. -/
theorem stop_total_and_reusable (s : EngineState) (msin : ℤ → ℚ)
    (params : MusicalParams) (memoryId : String) :
    stop s = .ok (afterStop s)
    ∧ (afterStop s).currentOscillators = []
    ∧ (afterStop s).masterGain = none
    ∧ (afterStop s).isPlaying = false
    ∧ stop (afterStop s) = .ok (afterStop s)
    ∧ playActivates msin params memoryId (afterStop s) = s.ctx := by
  refine ⟨stop_ok s, rfl, rfl, rfl, ?_, ?_⟩
  · rw [stop_ok]
    rfl
  · cases hc : s.ctx with
    | false =>
      have : (afterStop s).ctx = false := hc
      simp only [playActivates, play, this]
      rfl
    | true =>
      have : (afterStop s).ctx = true := hc
      rw [playActivates, play_ok msin params memoryId (afterStop s) this]
      rfl

theorem melodyTick_snd_emit (d : ℕ → ℚ) (c : ℚ) (l p : ℕ)
    (h : d p > 1 - c) : (melodyTick d c l p).2 = p + 3 := by
  simp [melodyTick, h]

theorem melodyTick_snd_skip (d : ℕ → ℚ) (c : ℚ) (l p : ℕ)
    (h : ¬ d p > 1 - c) : (melodyTick d c l p).2 = p + 1 := by
  simp [melodyTick, h]

theorem emitCount_step_bounds (d : ℕ → ℚ) (c : ℚ) (l start n : ℕ) :
    emitCount d c l start (n + 1) ≤ emitCount d c l start n + 1
    ∧ emitCount d c l start n ≤ emitCount d c l start (n + 1) := by
  constructor <;> (simp only [emitCount]; split <;> omega)

/-- The injected draw sequence of the spec's concrete scenario:
0.9, 0.2, 0.95, 0.3, repeating. -/
def draws3 : ℕ → ℚ :=
  fun n => [9 / 10, 1 / 5, 19 / 20, 3 / 10].getD (n % 4) 0

theorem draws3_posAfter (n : ℕ) :
    melodyPosAfter draws3 (1 / 2) 8 0 n = 2 * n + n % 2 := by
  induction n with
  | zero => rfl
  | succ n ih =>
    simp only [melodyPosAfter]
    rw [ih]
    by_cases hpar : n % 2 = 0
    · have h4 : (2 * n + n % 2) % 4 = 0 := by omega
      have hd : draws3 (2 * n + n % 2) = 9 / 10 := by
        unfold draws3
        rw [h4]
        rfl
      rw [melodyTick_snd_emit _ _ _ _ (by rw [hd]; norm_num)]
      omega
    · have h4 : (2 * n + n % 2) % 4 = 3 := by omega
      have hd : draws3 (2 * n + n % 2) = 3 / 10 := by
        unfold draws3
        rw [h4]
        rfl
      rw [melodyTick_snd_skip _ _ _ _ (by rw [hd]; norm_num)]
      omega

/-- C3: with tempo 80 the melody tick period is 0.75 s; with complexity 0.5
a tick emits exactly when its gate draw exceeds 0.5; and on the injected
draw sequence 0.9, 0.2, 0.95, 0.3, … the per-tick pattern is exactly
emit, skip, emit, skip, … (tick `n` emits iff `n` is even). -/
theorem melody_concrete_scenario :
    noteDurationSec 80 = 3 / 4
    ∧ (∀ (d : ℕ → ℚ) (p : ℕ),
        (melodyTick d (1 / 2) 8 p).1.isSome = decide (d p > 1 / 2))
    ∧ ∀ n : ℕ, tickEmits draws3 (1 / 2) 8 0 n = decide (n % 2 = 0) := by
  refine ⟨by norm_num [noteDurationSec, effectiveBpm], ?_, ?_⟩
  · intro d p
    rw [melodyTick_isSome]
    norm_num
  · intro n
    unfold tickEmits melodyOutput
    rw [draws3_posAfter, melodyTick_isSome]
    by_cases hpar : n % 2 = 0
    · have h4 : (2 * n + n % 2) % 4 = 0 := by omega
      have hd : draws3 (2 * n + n % 2) = 9 / 10 := by
        unfold draws3
        rw [h4]
        rfl
      rw [hd]
      simp [hpar]
      norm_num
    · have h4 : (2 * n + n % 2) % 4 = 3 := by omega
      have hd : draws3 (2 * n + n % 2) = 3 / 10 := by
        unfold draws3
        rw [h4]
        rfl
      rw [hd]
      simp [hpar]
      norm_num

/-- C4: for a fixed draw sequence and complexities `c1 ≤ c2` in [0.1, 1],
the number of emitting ticks over any common prefix under `c2` is at least
the number under `c1`, even though the two runs desynchronise their draw
positions as soon as their emission decisions differ. -/
theorem emitCount_mono_in_complexity (d : ℕ → ℚ) (l start : ℕ)
    (c1 c2 : ℚ) (h1 : 1 / 10 ≤ c1) (h12 : c1 ≤ c2) (h2 : c2 ≤ 1) (n : ℕ) :
    emitCount d c1 l start n ≤ emitCount d c2 l start n := by
  induction n with
  | zero => exact Nat.le_refl 0
  | succ n ih =>
    rcases eq_or_lt_of_le ih with heq | hlt
    · have hpos : melodyPosAfter d c1 l start n
          = melodyPosAfter d c2 l start n := by
        rw [melodyPosAfter_formula, melodyPosAfter_formula, heq]
      have himp : tickEmits d c1 l start n = true →
          tickEmits d c2 l start n = true := by
        intro he
        unfold tickEmits melodyOutput at he ⊢
        rw [melodyTick_isSome, decide_eq_true_eq] at he
        rw [melodyTick_isSome, ← hpos, decide_eq_true_eq]
        have : 1 - c2 ≤ 1 - c1 := by linarith
        linarith
      simp only [emitCount]
      cases he1 : tickEmits d c1 l start n with
      | false =>
        cases he2 : tickEmits d c2 l start n with
        | false =>
          norm_num
          omega
        | true =>
          norm_num
          omega
      | true =>
        have he2 := himp he1
        rw [he2]
        norm_num
        omega
    · have ha := (emitCount_step_bounds d c1 l start n).1
      have hb := (emitCount_step_bounds d c2 l start n).2
      omega

/-- Witness for `emitCount_mono_in_complexity` on the constant draw
sequence 0.5 with complexities 0.1 and 1 over three ticks. -/
theorem emitCount_mono_in_complexity_witness :
    emitCount (fun _ => (1 / 2 : ℚ)) (1 / 10) 8 0 3
      ≤ emitCount (fun _ => (1 / 2 : ℚ)) 1 8 0 3 :=
  emitCount_mono_in_complexity (fun _ => (1 / 2 : ℚ)) 8 0 (1 / 10) 1
    (by norm_num) (by norm_num) (by norm_num) 3

/-- C9: starting the pad voice consumes exactly the first six draws, two per
tone in fixed order (timbre, then modulator rate) for each of the three
tones; the tones sound at `baseFrequency / 2` times the ratios 1, 1.5 and
1.25 with fixed gain 0.08, each modulator frequency lies in [0.1, 0.3), and
the six generated units (3 tones + 3 modulators) are appended to the
session's teardown list. -/
theorem startPad_consumes_six (d : ℕ → ℚ) (bf : ℚ) (p : ℕ)
    (hd : ∀ n, 0 ≤ d n ∧ d n < 1) :
    (startPad d bf p).2 = p + 6
    ∧ (startPad d bf p).1
        = [padToneAt d bf p 1, padToneAt d bf (p + 2) (3 / 2),
           padToneAt d bf (p + 4) (5 / 4)]
    ∧ ((startPad d bf p).1).map PadTone.oscType
        = [if d p > 1 / 2 then .sine else .triangle,
           if d (p + 2) > 1 / 2 then .sine else .triangle,
           if d (p + 4) > 1 / 2 then .sine else .triangle]
    ∧ ((startPad d bf p).1).map PadTone.lfoFreq
        = [1 / 10 + d (p + 1) * (2 / 10), 1 / 10 + d (p + 3) * (2 / 10),
           1 / 10 + d (p + 5) * (2 / 10)]
    ∧ ((startPad d bf p).1).map PadTone.freq
        = [bf / 2 * 1, bf / 2 * (3 / 2), bf / 2 * (5 / 4)]
    ∧ ((startPad d bf p).1).map PadTone.gain = [8 / 100, 8 / 100, 8 / 100]
    ∧ (1 / 10 ≤ (padToneAt d bf p 1).lfoFreq
        ∧ (padToneAt d bf p 1).lfoFreq < 3 / 10)
    ∧ (1 / 10 ≤ (padToneAt d bf (p + 2) (3 / 2)).lfoFreq
        ∧ (padToneAt d bf (p + 2) (3 / 2)).lfoFreq < 3 / 10)
    ∧ (1 / 10 ≤ (padToneAt d bf (p + 4) (5 / 4)).lfoFreq
        ∧ (padToneAt d bf (p + 4) (5 / 4)).lfoFreq < 3 / 10)
    ∧ (padVoices (startPad d bf p).1).length = 6 := by
  refine ⟨rfl, rfl, rfl, rfl, rfl, rfl, ?_, ?_, ?_, rfl⟩ <;>
    simp only [padToneAt] <;>
    constructor <;>
    nlinarith [(hd (p + 1)).1, (hd (p + 1)).2, (hd (p + 3)).1, (hd (p + 3)).2,
      (hd (p + 5)).1, (hd (p + 5)).2]

/-- Witness for `startPad_consumes_six` on the constant draw sequence 0.5
with base frequency 440 from stream position 0. -/
theorem startPad_consumes_six_witness :
    (startPad (fun _ => (1 / 2 : ℚ)) 440 0).2 = 0 + 6
    ∧ (startPad (fun _ => (1 / 2 : ℚ)) 440 0).1
        = [padToneAt (fun _ => (1 / 2 : ℚ)) 440 0 1,
           padToneAt (fun _ => (1 / 2 : ℚ)) 440 (0 + 2) (3 / 2),
           padToneAt (fun _ => (1 / 2 : ℚ)) 440 (0 + 4) (5 / 4)]
    ∧ ((startPad (fun _ => (1 / 2 : ℚ)) 440 0).1).map PadTone.oscType
        = [if (1 / 2 : ℚ) > 1 / 2 then .sine else .triangle,
           if (1 / 2 : ℚ) > 1 / 2 then .sine else .triangle,
           if (1 / 2 : ℚ) > 1 / 2 then .sine else .triangle]
    ∧ ((startPad (fun _ => (1 / 2 : ℚ)) 440 0).1).map PadTone.lfoFreq
        = [1 / 10 + 1 / 2 * (2 / 10), 1 / 10 + 1 / 2 * (2 / 10),
           1 / 10 + 1 / 2 * (2 / 10)]
    ∧ ((startPad (fun _ => (1 / 2 : ℚ)) 440 0).1).map PadTone.freq
        = [440 / 2 * 1, 440 / 2 * (3 / 2), 440 / 2 * (5 / 4)]
    ∧ ((startPad (fun _ => (1 / 2 : ℚ)) 440 0).1).map PadTone.gain
        = [8 / 100, 8 / 100, 8 / 100]
    ∧ (1 / 10 ≤ (padToneAt (fun _ => (1 / 2 : ℚ)) 440 0 1).lfoFreq
        ∧ (padToneAt (fun _ => (1 / 2 : ℚ)) 440 0 1).lfoFreq < 3 / 10)
    ∧ (1 / 10 ≤ (padToneAt (fun _ => (1 / 2 : ℚ)) 440 (0 + 2) (3 / 2)).lfoFreq
        ∧ (padToneAt (fun _ => (1 / 2 : ℚ)) 440 (0 + 2) (3 / 2)).lfoFreq
            < 3 / 10)
    ∧ (1 / 10 ≤ (padToneAt (fun _ => (1 / 2 : ℚ)) 440 (0 + 4) (5 / 4)).lfoFreq
        ∧ (padToneAt (fun _ => (1 / 2 : ℚ)) 440 (0 + 4) (5 / 4)).lfoFreq
            < 3 / 10)
    ∧ (padVoices (startPad (fun _ => (1 / 2 : ℚ)) 440 0).1).length = 6 :=
  startPad_consumes_six (fun _ => (1 / 2 : ℚ)) 440 0
    (fun _ => ⟨by norm_num, by norm_num⟩)

/-- C10: each melody tick consumes exactly one draw when it skips and
exactly three when it emits — the gate draw at the current position, then
the scale-degree draw, then the octave draw — so the stream position before
tick `n` is the start position plus `n` plus twice the number of earlier
emitting ticks. -/
theorem melody_draw_consumption (d : ℕ → ℚ) (c : ℚ) (l start n : ℕ) :
    (melodyTick d c l (melodyPosAfter d c l start n)).2
      = melodyPosAfter d c l start n
        + (if tickEmits d c l start n then 3 else 1)
    ∧ melodyOutput d c l start n
      = (if d (melodyPosAfter d c l start n) > 1 - c then
           some { noteIdx := ⌊d (melodyPosAfter d c l start n + 1) * l⌋,
                  octave :=
                    if d (melodyPosAfter d c l start n + 2) > 7 / 10 then 2
                    else 1 }
         else none)
    ∧ melodyPosAfter d c l start n
      = start + n + 2 * emitCount d c l start n := by
  refine ⟨?_, ?_, melodyPosAfter_formula d c l start n⟩
  · have h : (melodyTick d c l (melodyPosAfter d c l start n)).1.isSome
        = tickEmits d c l start n := rfl
    rw [← h, melodyTick_snd]
  · unfold melodyOutput melodyTick
    by_cases hg : d (melodyPosAfter d c l start n) > 1 - c <;> simp [hg]

end AudioEngine
